import Mathlib

/-!
A verification development for the miniquad performance layer
(buffer pooling, command batching, GL state caching).

The Rust modules `src/graphics/buffer_pool.rs`, `src/graphics/command_buffer.rs`
and `src/graphics/gl/cache.rs` are shallowly embedded below:

* `HashMap` is modelled as an association list with first-occurrence lookup
  (`lookupKey` / `insertKey` / `removeKey`).
* `Vec` is modelled as a `List` with `push` appending at the end and `pop`
  removing the last element (`vecPop`), matching Rust's `Vec` semantics.
* `std::time::Instant` is modelled as a `Nat` timestamp in seconds
  (`Duration::from_secs(30)` becomes the number `30`); `Instant::now()`
  becomes an explicit `now : Nat` argument.
* `glGenBuffers` is modelled by an explicit handle argument / handle supply;
  a supplied handle `0` models generation failure, exactly as the Rust code
  checks `gl_buf == 0`.
* GL side effects (`glDeleteBuffers`, `glBufferData`, ...) that the claims do
  not observe are not tracked; where a claim observes native calls (the state
  cache, command execution) the functions return an explicit call trace.
* Rust `&mut self` methods become functions `State → ... → Result × State`
  so that mutations on error paths are kept.
* `f64`-valued statistics fields (`pool_efficiency`, `average_batch_size`,
  `compatibility_rate`) are floating-point ratios used only for reporting;
  they are omitted from the model.  The integer effect of
  `update_efficiency` (`gpu_allocations_saved = cache_hits`) is kept.
-/

/-! ### Association-list model of `std::collections::HashMap` -/

def lookupKey {κ ν : Type} [DecidableEq κ] : List (κ × ν) → κ → Option ν
  | [], _ => none
  | (k', v') :: rest, k => if k' = k then some v' else lookupKey rest k

def insertKey {κ ν : Type} [DecidableEq κ] : List (κ × ν) → κ → ν → List (κ × ν)
  | [], k, v => [(k, v)]
  | (k', v') :: rest, k, v =>
      if k' = k then (k, v) :: rest else (k', v') :: insertKey rest k v

def removeKey {κ ν : Type} [DecidableEq κ] : List (κ × ν) → κ → List (κ × ν)
  | [], _ => []
  | (k', v') :: rest, k => if k' = k then rest else (k', v') :: removeKey rest k

/-- `Vec::pop`: remove and return the last element. -/
def vecPop {α : Type} (l : List α) : Option (α × List α) :=
  match l.getLast? with
  | none => none
  | some x => some (x, l.dropLast)

theorem lookupKey_mem {κ ν : Type} [DecidableEq κ] {l : List (κ × ν)} {k : κ} {v : ν}
    (h : lookupKey l k = some v) : (k, v) ∈ l := by
  induction l with
  | nil => simp [lookupKey] at h
  | cons hd tl ih =>
      rw [lookupKey] at h
      by_cases hk : hd.1 = k
      · simp [hk] at h
        rw [List.mem_cons]
        left
        cases hd
        simp_all
      · simp [hk] at h
        rw [List.mem_cons]
        right
        exact ih h

theorem mem_insertKey {κ ν : Type} [DecidableEq κ] {l : List (κ × ν)} {k : κ} {v : ν}
    {kv : κ × ν} (h : kv ∈ insertKey l k v) : kv ∈ l ∨ kv = (k, v) := by
  induction l with
  | nil => simp [insertKey] at h; right; exact h
  | cons hd tl ih =>
      rw [insertKey] at h
      by_cases hk : hd.1 = k
      · simp [hk, List.mem_cons] at h
        rw [List.mem_cons]
        rcases h with h | h
        · right; exact h
        · left; right; exact h
      · simp [hk, List.mem_cons] at h
        rw [List.mem_cons]
        rcases h with h | h
        · left; left; exact h
        · rcases ih h with h' | h'
          · left; right; exact h'
          · right; exact h'

theorem lookupKey_insertKey_self {κ ν : Type} [DecidableEq κ] (l : List (κ × ν)) (k : κ) (v : ν) :
    lookupKey (insertKey l k v) k = some v := by
  induction l with
  | nil => simp [insertKey, lookupKey]
  | cons hd tl ih =>
      rw [insertKey]
      by_cases hk : hd.1 = k
      · simp [hk, lookupKey]
      · simp [hk, lookupKey, ih]

theorem mem_removeKey {κ ν : Type} [DecidableEq κ] {l : List (κ × ν)} {k : κ}
    {kv : κ × ν} (h : kv ∈ removeKey l k) : kv ∈ l := by
  induction l with
  | nil => simp [removeKey] at h
  | cons hd tl ih =>
      rw [removeKey] at h
      by_cases hk : hd.1 = k
      · rw [List.mem_cons]
        simp [hk] at h
        right; exact h
      · simp [hk, List.mem_cons] at h
        rw [List.mem_cons]
        rcases h with h | h
        · left; exact h
        · right; exact ih h

/-! ### Buffer pool data model (`src/graphics/buffer_pool.rs`) -/

/-- `BufferType` (from the public handle API of the crate; the two variants
used by `buffer_pool.rs`). -/
inductive BufferType where
  | VertexBuffer
  | IndexBuffer
deriving DecidableEq

/-- `BufferUsage` (from the public handle API of the crate; the three variants
used by `buffer_pool.rs`). -/
inductive BufferUsage where
  | Immutable
  | Dynamic
  | Stream
deriving DecidableEq

def MIN_POOL_SIZE : Nat := 8
def MAX_POOL_SIZE : Nat := 64
def MAX_TOTAL_BUFFERS : Nat := 512

def SIZE_BUCKETS : List Nat := [512, 2048, 8192, 32768, 131072, 524288, 2097152]

/-- `PooledBuffer`: a buffer owned by a free list or the active set.
`gl_buf` is the native handle (`GLuint`), `last_used` a timestamp in seconds. -/
structure PooledBuffer where
  gl_buf : Nat
  size : Nat
  buffer_type : BufferType
  usage : BufferUsage
  last_used : Nat
deriving DecidableEq

/-- `BufferPoolStats` (the `f64` field `pool_efficiency` is omitted, see the
module comment). -/
structure BufferPoolStats where
  total_buffers : Nat := 0
  buffers_in_use : Nat := 0
  buffers_available : Nat := 0
  cache_hits : Nat := 0
  cache_misses : Nat := 0
  pool_allocations : Nat := 0
  pool_deallocations : Nat := 0
  gpu_allocations_saved : Nat := 0
  memory_usage_bytes : Nat := 0
deriving DecidableEq

/-- `PoolKey`: identity of one free list. -/
structure PoolKey where
  buffer_type : BufferType
  usage : BufferUsage
  size_bucket : Nat
deriving DecidableEq

/-- `BufferPool`. -/
structure BufferPool where
  pools : List (PoolKey × List PooledBuffer)
  active_buffers : List (Nat × PooledBuffer)
  stats : BufferPoolStats
  max_age : Nat
deriving DecidableEq

/-- `BufferPool::new`. -/
def BufferPool.new : BufferPool :=
  { pools := [], active_buffers := [], stats := {}, max_age := 30 }

/-- The fallback loop of `get_size_bucket`: starting from the largest ladder
entry, double while `bucket < size`; after each doubling return immediately
when the bucket exceeds 16 MiB.  An explicit fuel argument drives the
recursion; from the fixed start `2097152` at most four doublings can happen
before the early return fires, so the fuel `5` used below never runs out. -/
def bucketLoop : Nat → Nat → Nat → Nat
  | 0, _, bucket => bucket
  | fuel + 1, size, bucket =>
      if bucket < size then
        let b := bucket * 2
        if b > 16 * 1024 * 1024 then b else bucketLoop fuel size b
      else bucket

/-- `BufferPool::get_size_bucket`: first ladder entry `≥ size`, else the
doubling fallback loop starting at the last ladder entry. -/
def get_size_bucket (size : Nat) : Nat :=
  match SIZE_BUCKETS.find? (fun b => size ≤ b) with
  | some b => b
  | none => bucketLoop 5 size 2097152

/-- Written from the spec's words for comparison with `get_size_bucket`:
"the smallest entry in a fixed monotonic ladder (512 B … 2 MiB, doubling
beyond the ladder, capped at 16 MiB) that is ≥ the requested size" — amended
on the cap: beyond the ladder the doubling continues through 4 MiB, 8 MiB and
16 MiB, and every size above 16 MiB yields 32 MiB (the first doubled value
over the cap is returned as-is). -/
def bucketSpec (size : Nat) : Nat :=
  if size ≤ 512 then 512
  else if size ≤ 2048 then 2048
  else if size ≤ 8192 then 8192
  else if size ≤ 32768 then 32768
  else if size ≤ 131072 then 131072
  else if size ≤ 524288 then 524288
  else if size ≤ 2097152 then 2097152
  else if size ≤ 4194304 then 4194304
  else if size ≤ 8388608 then 8388608
  else if size ≤ 16777216 then 16777216
  else 33554432

example : get_size_bucket 1 = 512 := by decide
example : get_size_bucket 513 = 2048 := by decide
example : get_size_bucket 2097152 = 2097152 := by decide
example : get_size_bucket 3000000 = 4194304 := by decide
example : get_size_bucket 16777217 = 33554432 := by decide
example : get_size_bucket 100000000 = 33554432 := by decide

/-! ### Buffer pool operations -/

/-- `update_efficiency`: the `f64` ratio is omitted; the integer effect kept. -/
def update_efficiency (self : BufferPool) : BufferPool :=
  { self with stats := { self.stats with gpu_allocations_saved := self.stats.cache_hits } }

/-- The pool-miss path of `acquire_buffer` (everything after the
`// Pool miss - need to create new buffer` comment).  `genHandle` is the
handle `glGenBuffers` writes; `0` models generation failure. -/
def acquireMiss (self : BufferPool) (buffer_type : BufferType) (usage : BufferUsage)
    (size_bucket : Nat) (now : Nat) (genHandle : Nat) :
    Except String Nat × BufferPool :=
  let self := { self with
    stats := { self.stats with cache_misses := self.stats.cache_misses + 1 } }
  if self.stats.total_buffers ≥ MAX_TOTAL_BUFFERS then
    (.error ("Buffer pool limit reached: " ++ toString MAX_TOTAL_BUFFERS), self)
  else if genHandle = 0 then
    (.error "Failed to generate GL buffer", self)
  else
    -- glBindBuffer / glBufferData(size_bucket) / glBindBuffer(0): untracked
    let buffer : PooledBuffer :=
      { gl_buf := genHandle, size := size_bucket, buffer_type := buffer_type,
        usage := usage, last_used := now }
    let self := { self with
      active_buffers := insertKey self.active_buffers genHandle buffer,
      stats := { self.stats with
        total_buffers := self.stats.total_buffers + 1,
        buffers_in_use := self.stats.buffers_in_use + 1,
        pool_allocations := self.stats.pool_allocations + 1,
        memory_usage_bytes := self.stats.memory_usage_bytes + size_bucket } }
    (.ok genHandle, self)

/-- `BufferPool::acquire_buffer`. -/
def acquire_buffer (self : BufferPool) (buffer_type : BufferType) (usage : BufferUsage)
    (size : Nat) (now : Nat) (genHandle : Nat) :
    Except String Nat × BufferPool :=
  let size_bucket := get_size_bucket size
  let pool_key : PoolKey :=
    { buffer_type := buffer_type, usage := usage, size_bucket := size_bucket }
  match lookupKey self.pools pool_key with
  | some pool =>
      match vecPop pool with
      | some (buffer, rest) =>
          let buffer := { buffer with last_used := now }
          let gl_buf := buffer.gl_buf
          let self := { self with
            pools := insertKey self.pools pool_key rest,
            active_buffers := insertKey self.active_buffers gl_buf buffer,
            stats := { self.stats with
              cache_hits := self.stats.cache_hits + 1,
              buffers_in_use := self.stats.buffers_in_use + 1,
              buffers_available := self.stats.buffers_available - 1 } }
          (.ok gl_buf, self)
      | none => acquireMiss self buffer_type usage size_bucket now genHandle
  | none => acquireMiss self buffer_type usage size_bucket now genHandle

/-- `BufferPool::release_buffer`. -/
def release_buffer (self : BufferPool) (gl_buf : Nat) :
    Except String Unit × BufferPool :=
  match lookupKey self.active_buffers gl_buf with
  | none =>
      (.error ("Buffer " ++ toString gl_buf ++ " not found in active buffers"), self)
  | some buffer =>
      let self := { self with active_buffers := removeKey self.active_buffers gl_buf }
      let pool_key : PoolKey :=
        { buffer_type := buffer.buffer_type, usage := buffer.usage,
          size_bucket := buffer.size }
      -- `self.pools.entry(pool_key).or_default()`
      let pool := (lookupKey self.pools pool_key).getD []
      if pool.length < MAX_POOL_SIZE then
        let self := { self with
          pools := insertKey self.pools pool_key (pool ++ [buffer]),
          stats := { self.stats with
            buffers_in_use := self.stats.buffers_in_use - 1,
            buffers_available := self.stats.buffers_available + 1,
            pool_deallocations := self.stats.pool_deallocations + 1 } }
        (.ok (), update_efficiency self)
      else
        -- pool full: glDeleteBuffers (untracked); the entry stays materialized
        let self := { self with
          pools := insertKey self.pools pool_key pool,
          stats := { self.stats with
            total_buffers := self.stats.total_buffers - 1,
            buffers_in_use := self.stats.buffers_in_use - 1,
            memory_usage_bytes := self.stats.memory_usage_bytes - buffer.size } }
        (.ok (), update_efficiency self)

/-- `Vec::swap_remove(i)`: replace element `i` with the last element and
shrink by one. -/
def swapRemove {α : Type} (l : List α) (i : Nat) : List α :=
  if i + 1 = l.length then l.dropLast
  else
    match l.getLast? with
    | some last => l.dropLast.set i last
    | none => l

theorem swapRemove_length {α : Type} (l : List α) (i : Nat) (h : i < l.length) :
    (swapRemove l i).length = l.length - 1 := by
  unfold swapRemove
  by_cases h1 : i + 1 = l.length
  · simp [h1, List.length_dropLast]
  · have hne : l ≠ [] := by
      intro hnil; rw [hnil] at h; simp at h
    rw [if_neg h1]
    cases hl : l.getLast? with
    | none => exact absurd (List.getLast?_eq_none_iff.mp hl) hne
    | some last => simp [List.length_dropLast]

/-- The index loop inside `cleanup_old_buffers` for one free list: walks the
vector with `swap_remove` for stale entries.  Returns (kept, removed). -/
def cleanupLoop (now maxAge : Nat) (l : List PooledBuffer) (i : Nat)
    (removed : List PooledBuffer) : List PooledBuffer × List PooledBuffer :=
  if h : i < l.length then
    let b := l.get ⟨i, h⟩
    if now - b.last_used ≥ maxAge then
      cleanupLoop now maxAge (swapRemove l i) i (removed ++ [b])
    else
      cleanupLoop now maxAge l (i + 1) removed
  else (l, removed)
termination_by l.length - i
decreasing_by
  · have := swapRemove_length l i h
    omega
  · omega

/-- `BufferPool::cleanup_old_buffers`.  The per-pool `iter_mut` loop is a
value-wise map over the pool table (hash-map iteration order only affects
the order of untracked `glDeleteBuffers` calls and of additions to the two
totals, which are commutative). -/
def cleanup_old_buffers (self : BufferPool) (now : Nat) : BufferPool :=
  let results : List (PoolKey × List PooledBuffer × List PooledBuffer) :=
    self.pools.map (fun kv => (kv.1, cleanupLoop now self.max_age kv.2 0 []))
  let pools' : List (PoolKey × List PooledBuffer) :=
    results.map (fun kv => (kv.1, kv.2.1))
  let total_cleaned : Nat := (results.map (fun kv => kv.2.2.length)).sum
  let memory_freed : Nat :=
    (results.map (fun kv => (kv.2.2.map (fun b => b.size)).sum)).sum
  -- glDeleteBuffers on every removed handle: untracked
  let self := { self with
    pools := pools'.filter (fun kv => !kv.2.isEmpty),
    stats := { self.stats with
      total_buffers := self.stats.total_buffers - total_cleaned,
      buffers_available := self.stats.buffers_available - total_cleaned,
      memory_usage_bytes := self.stats.memory_usage_bytes - memory_freed } }
  if total_cleaned > 0 then update_efficiency self else self

/-- `BufferPool::clear_all`. -/
def clear_all (self : BufferPool) : BufferPool :=
  -- glDeleteBuffers on every pooled and active handle: untracked
  { pools := [], active_buffers := [],
    stats := { cache_hits := self.stats.cache_hits,
               cache_misses := self.stats.cache_misses,
               pool_allocations := self.stats.pool_allocations,
               pool_deallocations := self.stats.pool_deallocations,
               gpu_allocations_saved := self.stats.gpu_allocations_saved },
    max_age := self.max_age }

/-- The inner `for _ in 0..MIN_POOL_SIZE { acquire; release }` loop of
`warm_up`.  `hs` is the handle supply for `glGenBuffers` (the `k`-th acquire
call is offered handle `hs k`); `k` counts acquire calls made so far. -/
def warmUpLoop (self : BufferPool) (buffer_type : BufferType) (usage : BufferUsage)
    (size : Nat) (now : Nat) (hs : Nat → Nat) (k : Nat) :
    Nat → Except String Unit × BufferPool × Nat
  | 0 => (.ok (), self, k)
  | n + 1 =>
      match acquire_buffer self buffer_type usage size now (hs k) with
      | (.error e, self') => (.error e, self', k + 1)
      | (.ok gl_buf, self') =>
          match release_buffer self' gl_buf with
          | (.error e, self'') => (.error e, self'', k + 1)
          | (.ok _, self'') => warmUpLoop self'' buffer_type usage size now hs (k + 1) n

/-- The outer `for &(buffer_type, usage, size) in &common_configs` loop of
`warm_up`. -/
def warmUpConfigs (now : Nat) (hs : Nat → Nat) (self : BufferPool) (k : Nat) :
    List (BufferType × BufferUsage × Nat) → Except String Unit × BufferPool
  | [] => (.ok (), self)
  | (bt, u, size) :: rest =>
      match warmUpLoop self bt u size now hs k MIN_POOL_SIZE with
      | (.error e, self', _) => (.error e, self')
      | (.ok _, self', k') => warmUpConfigs now hs self' k' rest

/-- `BufferPool::warm_up`. -/
def warm_up (self : BufferPool) (now : Nat) (hs : Nat → Nat) :
    Except String Unit × BufferPool :=
  let common_configs : List (BufferType × BufferUsage × Nat) :=
    [(.VertexBuffer, .Dynamic, 2048),
     (.VertexBuffer, .Immutable, 8192),
     (.IndexBuffer, .Immutable, 2048)]
  warmUpConfigs now hs self 0 common_configs

/-- One externally-invocable pool operation, for stating invariants over
arbitrary call sequences. -/
inductive PoolOp where
  | acquireOp (buffer_type : BufferType) (usage : BufferUsage)
      (size : Nat) (now : Nat) (genHandle : Nat)
  | releaseOp (gl_buf : Nat)
  | cleanupOp (now : Nat)
  | clearAllOp
  | warmUpOp (now : Nat) (hs : Nat → Nat)

def applyOp (self : BufferPool) : PoolOp → BufferPool
  | .acquireOp bt u size now h => (acquire_buffer self bt u size now h).2
  | .releaseOp gl_buf => (release_buffer self gl_buf).2
  | .cleanupOp now => cleanup_old_buffers self now
  | .clearAllOp => clear_all self
  | .warmUpOp now hs => (warm_up self now hs).2

def runOps (self : BufferPool) (ops : List PoolOp) : BufferPool :=
  ops.foldl applyOp self

/-! ### Invariant: the global buffer cap (for C1) -/

theorem acquireMiss_total_le {bp : BufferPool} (bt : BufferType) (u : BufferUsage)
    (sb now g : Nat) (h : bp.stats.total_buffers ≤ MAX_TOTAL_BUFFERS) :
    (acquireMiss bp bt u sb now g).2.stats.total_buffers ≤ MAX_TOTAL_BUFFERS := by
  simp only [acquireMiss]
  split
  · simpa using h
  · split
    · simpa using h
    · simp
      omega

theorem acquire_total_le {bp : BufferPool} (bt : BufferType) (u : BufferUsage)
    (size now g : Nat) (h : bp.stats.total_buffers ≤ MAX_TOTAL_BUFFERS) :
    (acquire_buffer bp bt u size now g).2.stats.total_buffers ≤ MAX_TOTAL_BUFFERS := by
  simp only [acquire_buffer]
  split
  · split
    · simpa using h
    · exact acquireMiss_total_le bt u _ now g h
  · exact acquireMiss_total_le bt u _ now g h

theorem release_total_le {bp : BufferPool} (gl_buf : Nat)
    (h : bp.stats.total_buffers ≤ MAX_TOTAL_BUFFERS) :
    (release_buffer bp gl_buf).2.stats.total_buffers ≤ MAX_TOTAL_BUFFERS := by
  simp only [release_buffer, update_efficiency]
  split
  · simpa using h
  · split
    · simpa using h
    · simp only []
      simp
      omega

theorem cleanup_total_le {bp : BufferPool} (now : Nat)
    (h : bp.stats.total_buffers ≤ MAX_TOTAL_BUFFERS) :
    (cleanup_old_buffers bp now).stats.total_buffers ≤ MAX_TOTAL_BUFFERS := by
  simp only [cleanup_old_buffers, update_efficiency]
  split <;> simp <;> omega

theorem clear_all_total_le (bp : BufferPool) :
    (clear_all bp).stats.total_buffers ≤ MAX_TOTAL_BUFFERS := by
  simp [clear_all, MAX_TOTAL_BUFFERS]

theorem warmUpLoop_total_le {bp : BufferPool} (bt : BufferType) (u : BufferUsage)
    (size now : Nat) (hs : Nat → Nat) (k n : Nat)
    (h : bp.stats.total_buffers ≤ MAX_TOTAL_BUFFERS) :
    (warmUpLoop bp bt u size now hs k n).2.1.stats.total_buffers ≤ MAX_TOTAL_BUFFERS := by
  induction n generalizing bp k with
  | zero => simpa [warmUpLoop] using h
  | succ n ih =>
      rw [warmUpLoop]
      split
      next e self1 heq =>
        have ha := acquire_total_le bt u size now (hs k) h
        rw [heq] at ha
        simpa using ha
      next gl_buf self1 heq =>
        have ha := acquire_total_le bt u size now (hs k) h
        rw [heq] at ha
        simp only [] at ha
        split
        next e self2 heq2 =>
          have hr := release_total_le gl_buf ha
          rw [heq2] at hr
          simpa using hr
        next self2 heq2 =>
          have hr := release_total_le gl_buf ha
          rw [heq2] at hr
          simp only [] at hr
          exact ih (k + 1) hr

theorem warmUpConfigs_total_le {bp : BufferPool} (now : Nat) (hs : Nat → Nat) (k : Nat)
    (configs : List (BufferType × BufferUsage × Nat))
    (h : bp.stats.total_buffers ≤ MAX_TOTAL_BUFFERS) :
    (warmUpConfigs now hs bp k configs).2.stats.total_buffers ≤ MAX_TOTAL_BUFFERS := by
  induction configs generalizing bp k with
  | nil => simpa [warmUpConfigs] using h
  | cons cfg rest ih =>
      obtain ⟨bt, u, size⟩ := cfg
      rw [warmUpConfigs]
      split
      next e self1 heq =>
        have hw := warmUpLoop_total_le bt u size now hs k MIN_POOL_SIZE h
        rw [heq] at hw
        simpa using hw
      next self1 k1 heq =>
        have hw := warmUpLoop_total_le bt u size now hs k MIN_POOL_SIZE h
        rw [heq] at hw
        simp only [] at hw
        exact ih k1 hw

theorem applyOp_total_le {bp : BufferPool} (op : PoolOp)
    (h : bp.stats.total_buffers ≤ MAX_TOTAL_BUFFERS) :
    (applyOp bp op).stats.total_buffers ≤ MAX_TOTAL_BUFFERS := by
  cases op with
  | acquireOp bt u size now g => exact acquire_total_le bt u size now g h
  | releaseOp gl_buf => exact release_total_le gl_buf h
  | cleanupOp now => exact cleanup_total_le now h
  | clearAllOp => exact clear_all_total_le bp
  | warmUpOp now hs => exact warmUpConfigs_total_le now hs 0 _ h

theorem runOps_total_le {bp : BufferPool} (ops : List PoolOp)
    (h : bp.stats.total_buffers ≤ MAX_TOTAL_BUFFERS) :
    (runOps bp ops).stats.total_buffers ≤ MAX_TOTAL_BUFFERS := by
  induction ops generalizing bp with
  | nil => simpa [runOps] using h
  | cons op rest ih =>
      rw [runOps, List.foldl_cons]
      exact ih (applyOp_total_le op h)

/-! ### Invariant: per-key free-list capacity (for C9) -/

/-- Every free list in the pool table holds at most `MAX_POOL_SIZE` buffers. -/
def PoolCapInv (bp : BufferPool) : Prop :=
  ∀ kv ∈ bp.pools, (kv.2 : List PooledBuffer).length ≤ MAX_POOL_SIZE

theorem vecPop_length_le {α : Type} {l r : List α} {x : α}
    (h : vecPop l = some (x, r)) : r.length ≤ l.length := by
  unfold vecPop at h
  cases hl : l.getLast? with
  | none => rw [hl] at h; simp at h
  | some y =>
      rw [hl] at h
      simp at h
      rw [← h.2]
      simp [List.length_dropLast]

theorem cleanupLoop_fst_length_le (now maxAge : Nat) :
    ∀ (m : Nat) (l : List PooledBuffer) (i : Nat) (removed : List PooledBuffer),
      l.length - i = m →
      ((cleanupLoop now maxAge l i removed).1).length ≤ l.length := by
  intro m
  induction m using Nat.strong_induction_on with
  | _ m ih =>
      intro l i removed hm
      rw [cleanupLoop]
      by_cases h : i < l.length
      · rw [dif_pos h]
        by_cases hold : now - (l.get ⟨i, h⟩).last_used ≥ maxAge
        · rw [if_pos hold]
          have hlen := swapRemove_length l i h
          have hrec := ih ((swapRemove l i).length - i) (by omega)
            (swapRemove l i) i (removed ++ [l.get ⟨i, h⟩]) rfl
          omega
        · rw [if_neg hold]
          exact ih (l.length - (i + 1)) (by omega) l (i + 1) removed rfl
      · rw [dif_neg h]

theorem acquireMiss_pools (bp : BufferPool) (bt : BufferType) (u : BufferUsage)
    (sb now g : Nat) : (acquireMiss bp bt u sb now g).2.pools = bp.pools := by
  simp only [acquireMiss]
  split
  · rfl
  · split <;> rfl

theorem acquire_poolCapInv {bp : BufferPool} (bt : BufferType) (u : BufferUsage)
    (size now g : Nat) (h : PoolCapInv bp) :
    PoolCapInv (acquire_buffer bp bt u size now g).2 := by
  simp only [acquire_buffer]
  split
  next pool hl =>
    split
    next buffer rest hp =>
      intro kv hkv
      simp only [] at hkv
      rcases mem_insertKey hkv with hin | hnew
      · exact h kv hin
      · have hm := lookupKey_mem hl
        have hpl : pool.length ≤ MAX_POOL_SIZE := h _ hm
        have hr := vecPop_length_le hp
        subst hnew
        show rest.length ≤ MAX_POOL_SIZE
        omega
    next hp =>
      intro kv hkv
      rw [acquireMiss_pools] at hkv
      exact h kv hkv
  next hl =>
    intro kv hkv
    rw [acquireMiss_pools] at hkv
    exact h kv hkv

theorem release_poolCapInv {bp : BufferPool} (gl_buf : Nat) (h : PoolCapInv bp) :
    PoolCapInv (release_buffer bp gl_buf).2 := by
  simp only [release_buffer, update_efficiency]
  split
  · exact h
  next buffer hl =>
    have hpool : ((lookupKey bp.pools
        { buffer_type := buffer.buffer_type, usage := buffer.usage,
          size_bucket := buffer.size }).getD []).length ≤ MAX_POOL_SIZE := by
      cases hlk : lookupKey bp.pools
          { buffer_type := buffer.buffer_type, usage := buffer.usage,
            size_bucket := buffer.size } with
      | none => simp
      | some p => simpa using h _ (lookupKey_mem hlk)
    split
    next hlt =>
      intro kv hkv
      simp only [] at hkv
      rcases mem_insertKey hkv with hin | hnew
      · exact h kv hin
      · subst hnew
        simp only [List.length_append, List.length_singleton]
        simp only [MAX_POOL_SIZE] at hlt ⊢
        omega
    next hge =>
      intro kv hkv
      simp only [] at hkv
      rcases mem_insertKey hkv with hin | hnew
      · exact h kv hin
      · subst hnew
        exact hpool

theorem cleanup_poolCapInv {bp : BufferPool} (now : Nat) (h : PoolCapInv bp) :
    PoolCapInv (cleanup_old_buffers bp now) := by
  simp only [cleanup_old_buffers, update_efficiency]
  split
  all_goals
    intro kv hkv
    have hkv2 := List.mem_of_mem_filter hkv
    rw [List.map_map, List.mem_map] at hkv2
    obtain ⟨orig, horig, heq⟩ := hkv2
    have hle := cleanupLoop_fst_length_le now bp.max_age (orig.2.length - 0) orig.2 0 [] rfl
    have horig_le : orig.2.length ≤ MAX_POOL_SIZE := h orig horig
    rw [← heq]
    simp only [Function.comp]
    show ((cleanupLoop now bp.max_age orig.2 0 []).1).length ≤ MAX_POOL_SIZE
    omega

theorem clear_all_poolCapInv (bp : BufferPool) : PoolCapInv (clear_all bp) := by
  intro kv hkv
  simp [clear_all] at hkv

theorem warmUpLoop_poolCapInv {bp : BufferPool} (bt : BufferType) (u : BufferUsage)
    (size now : Nat) (hs : Nat → Nat) (k n : Nat) (h : PoolCapInv bp) :
    PoolCapInv (warmUpLoop bp bt u size now hs k n).2.1 := by
  induction n generalizing bp k with
  | zero => simpa [warmUpLoop] using h
  | succ n ih =>
      rw [warmUpLoop]
      split
      next e self1 heq =>
        have ha := acquire_poolCapInv bt u size now (hs k) h
        rw [heq] at ha
        simpa using ha
      next gl_buf self1 heq =>
        have ha := acquire_poolCapInv bt u size now (hs k) h
        rw [heq] at ha
        simp only [] at ha
        split
        next e self2 heq2 =>
          have hr := release_poolCapInv gl_buf ha
          rw [heq2] at hr
          simpa using hr
        next self2 heq2 =>
          have hr := release_poolCapInv gl_buf ha
          rw [heq2] at hr
          simp only [] at hr
          exact ih (k + 1) hr

theorem warmUpConfigs_poolCapInv {bp : BufferPool} (now : Nat) (hs : Nat → Nat) (k : Nat)
    (configs : List (BufferType × BufferUsage × Nat)) (h : PoolCapInv bp) :
    PoolCapInv (warmUpConfigs now hs bp k configs).2 := by
  induction configs generalizing bp k with
  | nil => simpa [warmUpConfigs] using h
  | cons cfg rest ih =>
      obtain ⟨bt, u, size⟩ := cfg
      rw [warmUpConfigs]
      split
      next e self1 heq =>
        have hw := warmUpLoop_poolCapInv bt u size now hs k MIN_POOL_SIZE h
        rw [heq] at hw
        simpa using hw
      next self1 k1 heq =>
        have hw := warmUpLoop_poolCapInv bt u size now hs k MIN_POOL_SIZE h
        rw [heq] at hw
        simp only [] at hw
        exact ih k1 hw

theorem applyOp_poolCapInv {bp : BufferPool} (op : PoolOp) (h : PoolCapInv bp) :
    PoolCapInv (applyOp bp op) := by
  cases op with
  | acquireOp bt u size now g => exact acquire_poolCapInv bt u size now g h
  | releaseOp gl_buf => exact release_poolCapInv gl_buf h
  | cleanupOp now => exact cleanup_poolCapInv now h
  | clearAllOp => exact clear_all_poolCapInv bp
  | warmUpOp now hs => exact warmUpConfigs_poolCapInv now hs 0 _ h

theorem runOps_poolCapInv {bp : BufferPool} (ops : List PoolOp) (h : PoolCapInv bp) :
    PoolCapInv (runOps bp ops) := by
  induction ops generalizing bp with
  | nil => simpa [runOps] using h
  | cons op rest ih =>
      rw [runOps, List.foldl_cons]
      exact ih (applyOp_poolCapInv op h)

theorem poolCapInv_lookup {bp : BufferPool} (h : PoolCapInv bp) (key : PoolKey) :
    ((lookupKey bp.pools key).getD []).length ≤ MAX_POOL_SIZE := by
  cases hl : lookupKey bp.pools key with
  | none => simp
  | some p => simpa using h _ (lookupKey_mem hl)

/-! ### Claim theorems for the buffer pool -/

theorem acquireMiss_at_cap {bp : BufferPool} (bt : BufferType) (u : BufferUsage)
    (sb now g : Nat) (hcap : bp.stats.total_buffers ≥ MAX_TOTAL_BUFFERS) :
    acquireMiss bp bt u sb now g =
      (Except.error ("Buffer pool limit reached: " ++ toString MAX_TOTAL_BUFFERS),
       { bp with stats := { bp.stats with cache_misses := bp.stats.cache_misses + 1 } }) := by
  simp only [acquireMiss]
  split
  next hge => rfl
  next hlt => exact absurd hcap (by simpa using hlt)

/-- C1: for every sequence of `acquire_buffer` / `release_buffer` (and
`cleanup_old_buffers` / `clear_all` / `warm_up`) calls starting from a new
`BufferPool`, `stats.total_buffers` never exceeds `MAX_TOTAL_BUFFERS` (512);
and an `acquire_buffer` call that misses the pool while the count is at the
cap returns the resource-limit error and changes nothing but the
`cache_misses` counter — in particular it creates no buffer and registers
nothing in the active set. -/
theorem acquire_respects_global_buffer_cap :
    (∀ ops : List PoolOp,
        (runOps BufferPool.new ops).stats.total_buffers ≤ MAX_TOTAL_BUFFERS) ∧
    (∀ (bp : BufferPool) (bt : BufferType) (u : BufferUsage) (size now g : Nat),
        (lookupKey bp.pools
          { buffer_type := bt, usage := u, size_bucket := get_size_bucket size }).getD []
          = [] →
        bp.stats.total_buffers = MAX_TOTAL_BUFFERS →
        acquire_buffer bp bt u size now g =
          (Except.error ("Buffer pool limit reached: " ++ toString MAX_TOTAL_BUFFERS),
           { bp with
              stats := { bp.stats with cache_misses := bp.stats.cache_misses + 1 } })) := by
  constructor
  · intro ops
    exact runOps_total_le ops (by simp [BufferPool.new, MAX_TOTAL_BUFFERS])
  · intro bp bt u size now g hmiss hcap
    have hcap' : bp.stats.total_buffers ≥ MAX_TOTAL_BUFFERS := le_of_eq hcap.symm
    simp only [acquire_buffer]
    split
    next pool hl =>
      rw [hl] at hmiss
      simp at hmiss
      subst hmiss
      exact acquireMiss_at_cap bt u _ now g hcap'
    next hl =>
      exact acquireMiss_at_cap bt u _ now g hcap'

/-- A pool whose tracked total sits exactly at the global cap. -/
def capPool : BufferPool :=
  { pools := [], active_buffers := [],
    stats := { total_buffers := MAX_TOTAL_BUFFERS }, max_age := 30 }

theorem acquire_respects_global_buffer_cap_witness :
    (runOps BufferPool.new
        [PoolOp.acquireOp BufferType.VertexBuffer BufferUsage.Dynamic 100 0 1,
         PoolOp.releaseOp 1]).stats.total_buffers ≤ MAX_TOTAL_BUFFERS ∧
    acquire_buffer capPool BufferType.VertexBuffer BufferUsage.Dynamic 100 0 1 =
      (Except.error ("Buffer pool limit reached: " ++ toString MAX_TOTAL_BUFFERS),
       { capPool with
          stats := { capPool.stats with
            cache_misses := capPool.stats.cache_misses + 1 } }) :=
  ⟨acquire_respects_global_buffer_cap.1
      [PoolOp.acquireOp BufferType.VertexBuffer BufferUsage.Dynamic 100 0 1,
       PoolOp.releaseOp 1],
   acquire_respects_global_buffer_cap.2 capPool BufferType.VertexBuffer
      BufferUsage.Dynamic 100 0 1 rfl rfl⟩

/-- C8: releasing a handle that is not in the active set (double release or a
foreign handle) returns the not-found error and leaves the entire pool state
unchanged — no counter, no free list and no active-set entry is altered. -/
theorem release_unknown_handle_fails_unchanged :
    ∀ (bp : BufferPool) (gl_buf : Nat),
      lookupKey bp.active_buffers gl_buf = none →
      release_buffer bp gl_buf =
        (Except.error ("Buffer " ++ toString gl_buf ++ " not found in active buffers"),
         bp) := by
  intro bp gl_buf h
  simp only [release_buffer]
  split
  · rfl
  next buffer hl =>
    rw [h] at hl
    cases hl

theorem release_unknown_handle_fails_unchanged_witness :
    release_buffer BufferPool.new 5 =
      (Except.error ("Buffer " ++ toString 5 ++ " not found in active buffers"),
       BufferPool.new) :=
  release_unknown_handle_fails_unchanged BufferPool.new 5 rfl

/-- C9: over every operation sequence from a new pool, no single `PoolKey`
free list ever holds more than `MAX_POOL_SIZE` (64) buffers; and a
`release_buffer` call whose owning pool is already at capacity destroys the
buffer instead of queuing it: it succeeds, leaves the free list unchanged,
decrements `total_buffers` and `memory_usage_bytes`, and does not touch
`buffers_available` or `pool_deallocations`. -/
theorem free_list_respects_per_key_capacity :
    (∀ (ops : List PoolOp) (key : PoolKey),
        ((lookupKey (runOps BufferPool.new ops).pools key).getD []).length
          ≤ MAX_POOL_SIZE) ∧
    (∀ (bp : BufferPool) (gl_buf : Nat) (buffer : PooledBuffer),
        lookupKey bp.active_buffers gl_buf = some buffer →
        ((lookupKey bp.pools
            { buffer_type := buffer.buffer_type, usage := buffer.usage,
              size_bucket := buffer.size }).getD []).length = MAX_POOL_SIZE →
        (release_buffer bp gl_buf).1 = Except.ok () ∧
        (lookupKey (release_buffer bp gl_buf).2.pools
            { buffer_type := buffer.buffer_type, usage := buffer.usage,
              size_bucket := buffer.size }).getD [] =
          (lookupKey bp.pools
            { buffer_type := buffer.buffer_type, usage := buffer.usage,
              size_bucket := buffer.size }).getD [] ∧
        (release_buffer bp gl_buf).2.stats.total_buffers
          = bp.stats.total_buffers - 1 ∧
        (release_buffer bp gl_buf).2.stats.memory_usage_bytes
          = bp.stats.memory_usage_bytes - buffer.size ∧
        (release_buffer bp gl_buf).2.stats.buffers_available
          = bp.stats.buffers_available ∧
        (release_buffer bp gl_buf).2.stats.pool_deallocations
          = bp.stats.pool_deallocations) := by
  constructor
  · intro ops key
    refine poolCapInv_lookup ?_ key
    refine runOps_poolCapInv ops ?_
    intro kv hkv
    simp [BufferPool.new] at hkv
  · intro bp gl_buf buffer hact hcap
    simp only [release_buffer, update_efficiency]
    split
    next hl => rw [hact] at hl; cases hl
    next buffer' hl =>
      rw [hact] at hl
      injection hl with hb
      subst hb
      split
      next hlt =>
        rw [hcap] at hlt
        exact absurd hlt (by simp)
      next hge =>
        refine ⟨rfl, ?_, rfl, rfl, rfl, rfl⟩
        rw [lookupKey_insertKey_self]
        rfl

def fullPoolBuffer : PooledBuffer :=
  { gl_buf := 1, size := 512, buffer_type := .VertexBuffer, usage := .Dynamic,
    last_used := 0 }

/-- A pool whose `(VertexBuffer, Dynamic, 512)` free list is at capacity while
handle `1` is active. -/
def fullPool : BufferPool :=
  { pools := [({ buffer_type := .VertexBuffer, usage := .Dynamic, size_bucket := 512 },
               List.replicate 64 fullPoolBuffer)],
    active_buffers := [(1, fullPoolBuffer)],
    stats := { total_buffers := 65, buffers_in_use := 1, buffers_available := 64,
               memory_usage_bytes := 33280 },
    max_age := 30 }

theorem free_list_respects_per_key_capacity_witness :
    ((lookupKey (runOps BufferPool.new
        [PoolOp.acquireOp BufferType.VertexBuffer BufferUsage.Dynamic 100 0 1,
         PoolOp.releaseOp 1]).pools
        { buffer_type := .VertexBuffer, usage := .Dynamic, size_bucket := 512 }).getD
          []).length ≤ MAX_POOL_SIZE ∧
    ((release_buffer fullPool 1).1 = Except.ok () ∧
     (release_buffer fullPool 1).2.stats.total_buffers
        = fullPool.stats.total_buffers - 1) :=
  ⟨free_list_respects_per_key_capacity.1
      [PoolOp.acquireOp BufferType.VertexBuffer BufferUsage.Dynamic 100 0 1,
       PoolOp.releaseOp 1]
      { buffer_type := .VertexBuffer, usage := .Dynamic, size_bucket := 512 },
   by
    have h := free_list_respects_per_key_capacity.2 fullPool 1 fullPoolBuffer rfl
      (by simp [fullPool, fullPoolBuffer, lookupKey, MAX_POOL_SIZE])
    exact ⟨h.1, h.2.2.1⟩⟩

theorem get_size_bucket_eq_bucketSpec : ∀ size, get_size_bucket size = bucketSpec size := by
  intro size
  unfold get_size_bucket bucketSpec SIZE_BUCKETS
  by_cases h1 : size ≤ 512
  · simp [List.find?, h1]
  by_cases h2 : size ≤ 2048
  · simp [List.find?, h1, h2]
  by_cases h3 : size ≤ 8192
  · simp [List.find?, h1, h2, h3]
  by_cases h4 : size ≤ 32768
  · simp [List.find?, h1, h2, h3, h4]
  by_cases h5 : size ≤ 131072
  · simp [List.find?, h1, h2, h3, h4, h5]
  by_cases h6 : size ≤ 524288
  · simp [List.find?, h1, h2, h3, h4, h5, h6]
  by_cases h7 : size ≤ 2097152
  · simp [List.find?, h1, h2, h3, h4, h5, h6, h7]
  simp [List.find?, h1, h2, h3, h4, h5, h6, h7]
  by_cases h8 : size ≤ 4194304
  · have ha : 2097152 < size := by omega
    have hb : ¬ 4194304 < size := by omega
    simp [bucketLoop, ha, hb, h8]
  by_cases h9 : size ≤ 8388608
  · have ha : 2097152 < size := by omega
    have hb : 4194304 < size := by omega
    have hc : ¬ 8388608 < size := by omega
    simp [bucketLoop, ha, hb, hc, h8, h9]
  by_cases h10 : size ≤ 16777216
  · have ha : 2097152 < size := by omega
    have hb : 4194304 < size := by omega
    have hc : 8388608 < size := by omega
    have hd : ¬ 16777216 < size := by omega
    simp [bucketLoop, ha, hb, hc, hd, h8, h9, h10]
  · have ha : 2097152 < size := by omega
    have hb : 4194304 < size := by omega
    have hc : 8388608 < size := by omega
    have hd : 16777216 < size := by omega
    simp [bucketLoop, ha, hb, hc, hd, h8, h9, h10]

/-- C3 counterexample: the claim says `get_size_bucket` "never returns a
bucket larger than 16 MiB", but at the concrete request `16*1024*1024 + 1`
the code returns `33554432` = 32 MiB, strictly larger than 16 MiB (the early
`return bucket` inside the fallback loop fires *after* the doubling that
crossed the cap, handing the over-cap bucket to the caller). -/
theorem get_size_bucket_breaks_claimed_cap :
    get_size_bucket (16 * 1024 * 1024 + 1) = 33554432 ∧
    16 * 1024 * 1024 < get_size_bucket (16 * 1024 * 1024 + 1) := by
  constructor <;> decide

/-- C3 (amended): `get_size_bucket` returns the smallest entry of the fixed
ladder (512, 2048, 8192, 32768, 131072, 524288, 2097152) that is ≥ the
requested size; beyond the ladder it doubles in powers of two through 4 MiB,
8 MiB and 16 MiB, and every size above 16 MiB yields 32 MiB (the first
doubled value over the nominal 16 MiB cap is returned as-is, even when it is
smaller than the request); in particular 1 ↦ 512, 513 ↦ 2048,
2097152 ↦ 2097152 and 3000000 ↦ 4194304. -/
theorem get_size_bucket_matches_amended_ladder :
    (∀ size, get_size_bucket size = bucketSpec size) ∧
    get_size_bucket 1 = 512 ∧ get_size_bucket 513 = 2048 ∧
    get_size_bucket 2097152 = 2097152 ∧ get_size_bucket 3000000 = 4194304 ∧
    (∀ size, size ≤ 2097152 →
      get_size_bucket size ∈ SIZE_BUCKETS ∧ size ≤ get_size_bucket size) ∧
    (∀ size, ∀ b ∈ SIZE_BUCKETS, size ≤ b → get_size_bucket size ≤ b) := by
  refine ⟨get_size_bucket_eq_bucketSpec, by decide, by decide, by decide, by decide, ?_, ?_⟩
  · intro size hsize
    rw [get_size_bucket_eq_bucketSpec]
    unfold bucketSpec
    split_ifs <;> simp [SIZE_BUCKETS] <;> omega
  · intro size b hb hbs
    rw [get_size_bucket_eq_bucketSpec]
    simp [SIZE_BUCKETS] at hb
    unfold bucketSpec
    rcases hb with rfl | rfl | rfl | rfl | rfl | rfl | rfl <;> split_ifs <;> omega

theorem get_size_bucket_matches_amended_ladder_witness :
    (600 ≤ 2097152 →
      get_size_bucket 600 ∈ SIZE_BUCKETS ∧ 600 ≤ get_size_bucket 600) ∧
    (600 ≤ 2048 → get_size_bucket 600 ≤ 2048) :=
  ⟨fun h => get_size_bucket_matches_amended_ladder.2.2.2.2.2.1 600 h,
   fun h => get_size_bucket_matches_amended_ladder.2.2.2.2.2.2 600 2048
     (by decide) h⟩

/-- C10: starting from a new `BufferPool`, when native buffer generation
always succeeds (`hs n ≠ 0`), `warm_up` returns `Ok` and leaves exactly ONE
buffer — not `MIN_POOL_SIZE` (8) — in the free list of each of its three
common configurations, because after the first acquire/release of a
configuration every later acquire in the loop is a pool hit popping that same
buffer back out; afterwards `total_buffers = 3`, `buffers_available = 3`,
`cache_misses` has grown by 3 and `cache_hits` by 21. -/
theorem warm_up_leaves_one_buffer_per_config :
    ∀ (now : Nat) (hs : Nat → Nat), (∀ n, hs n ≠ 0) →
      (warm_up BufferPool.new now hs).1 = Except.ok () ∧
      ((lookupKey (warm_up BufferPool.new now hs).2.pools
          { buffer_type := .VertexBuffer, usage := .Dynamic,
            size_bucket := 2048 }).getD []).length = 1 ∧
      ((lookupKey (warm_up BufferPool.new now hs).2.pools
          { buffer_type := .VertexBuffer, usage := .Immutable,
            size_bucket := 8192 }).getD []).length = 1 ∧
      ((lookupKey (warm_up BufferPool.new now hs).2.pools
          { buffer_type := .IndexBuffer, usage := .Immutable,
            size_bucket := 2048 }).getD []).length = 1 ∧
      (warm_up BufferPool.new now hs).2.stats.total_buffers = 3 ∧
      (warm_up BufferPool.new now hs).2.stats.buffers_available = 3 ∧
      (warm_up BufferPool.new now hs).2.stats.cache_misses = 3 ∧
      (warm_up BufferPool.new now hs).2.stats.cache_hits = 21 := by
  intro now hs h
  simp [warm_up, warmUpConfigs, warmUpLoop, acquire_buffer, acquireMiss,
    release_buffer, update_efficiency, BufferPool.new, get_size_bucket,
    SIZE_BUCKETS, List.find?, vecPop, lookupKey, insertKey, removeKey,
    MIN_POOL_SIZE, MAX_POOL_SIZE, MAX_TOTAL_BUFFERS, h]

theorem warm_up_leaves_one_buffer_per_config_witness :
    (warm_up BufferPool.new 0 (fun n => n + 1)).1 = Except.ok () ∧
    (warm_up BufferPool.new 0 (fun n => n + 1)).2.stats.total_buffers = 3 ∧
    (warm_up BufferPool.new 0 (fun n => n + 1)).2.stats.cache_hits = 21 := by
  have h := warm_up_leaves_one_buffer_per_config 0 (fun n => n + 1)
    (fun n => Nat.succ_ne_zero n)
  exact ⟨h.1, h.2.2.2.2.1, h.2.2.2.2.2.2.2⟩

/-! ### GL state cache (`src/graphics/gl/cache.rs`)

Standard OpenGL enum values (from the crate's native GL bindings, outside
`src/`; only their distinctness matters here). -/

def GL_ARRAY_BUFFER : Nat := 34962
def GL_ELEMENT_ARRAY_BUFFER : Nat := 34963
def GL_TEXTURE_2D : Nat := 3553
def GL_TEXTURE0 : Nat := 33984

/-- Modelled from the spec: "up to N texture units" — the crate-level constant
`MAX_SHADERSTAGE_IMAGES` is not under `src/`; miniquad uses 12, and nothing
below depends on the exact value. -/
def MAX_SHADERSTAGE_IMAGES : Nat := 12

structure CachedTexture where
  target : Nat
  texture : Nat
deriving DecidableEq

/-- One native GL call issued by the state cache (the profiler notification
`profiling::get_profiler()...record_*` is observability and is not traced). -/
inductive GlCall where
  | bindBufferCall (target buffer : Nat)
  | activeTextureCall (unit : Nat)
  | bindTextureCall (target texture : Nat)
  | useProgramCall (program : Nat)
  | viewportNative (x y w h : Int)
  | scissorEnableCall
  | scissorNative (x y w h : Int)
deriving DecidableEq

/-- `GlCache`: the slots read or written by the six slot methods.  The fields
`cur_pipeline`, `cur_pass`, `color_blend`, `alpha_blend`, `stencil`,
`color_write`, `cull_face` and `attributes` are never touched by those
methods and are omitted. -/
structure GlCache where
  stored_index_buffer : Nat
  stored_index_type : Option Nat
  stored_vertex_buffer : Nat
  stored_target : Nat
  stored_texture : Nat
  index_buffer : Nat
  index_type : Option Nat
  vertex_buffer : Nat
  textures : List CachedTexture
  current_program : Nat
  viewport : Int × Int × Int × Int
  scissor : Option (Int × Int × Int × Int)
  program_dirty : Bool
  viewport_dirty : Bool
  scissor_dirty : Bool
deriving DecidableEq

/-- `impl Default for GlCache`. -/
def GlCache.default : GlCache :=
  { stored_index_buffer := 0, stored_index_type := none,
    stored_vertex_buffer := 0, stored_target := 0, stored_texture := 0,
    index_buffer := 0, index_type := none, vertex_buffer := 0,
    textures := List.replicate MAX_SHADERSTAGE_IMAGES { target := 0, texture := 0 },
    current_program := 0, viewport := (0, 0, 0, 0), scissor := none,
    program_dirty := true, viewport_dirty := true, scissor_dirty := true }

/-- `GlCache::bind_buffer`; the returned list is the trace of native calls. -/
def GlCache.bind_buffer (self : GlCache) (target buffer : Nat)
    (index_type : Option Nat) : GlCache × List GlCall :=
  if target = GL_ARRAY_BUFFER then
    if self.vertex_buffer ≠ buffer then
      ({ self with vertex_buffer := buffer }, [.bindBufferCall target buffer])
    else (self, [])
  else
    if self.index_buffer ≠ buffer then
      ({ self with index_buffer := buffer, index_type := index_type },
       [.bindBufferCall target buffer])
    else ({ self with index_type := index_type }, [])

/-- `GlCache::bind_texture` (array access `self.textures[slot_index]` is
modelled with `getD`/`set`; real calls keep `slot_index` in bounds). -/
def GlCache.bind_texture (self : GlCache) (slot_index target texture : Nat) :
    GlCache × List GlCall :=
  let act : List GlCall := [.activeTextureCall (GL_TEXTURE0 + slot_index)]
  let cached := self.textures.getD slot_index { target := 0, texture := 0 }
  if cached.target ≠ target ∨ cached.texture ≠ texture then
    let target := if target = 0 then GL_TEXTURE_2D else target
    ({ self with
        textures := self.textures.set slot_index { target := target, texture := texture } },
     act ++ [.bindTextureCall target texture])
  else (self, act)

/-- `GlCache::use_program`. -/
def GlCache.use_program (self : GlCache) (program : Nat) : GlCache × List GlCall :=
  if self.current_program ≠ program ∨ self.program_dirty then
    ({ self with current_program := program, program_dirty := false },
     [.useProgramCall program])
  else (self, [])

/-- `GlCache::apply_viewport`. -/
def GlCache.apply_viewport (self : GlCache) (x y w h : Int) : GlCache × List GlCall :=
  let new_viewport := (x, y, w, h)
  if self.viewport ≠ new_viewport ∨ self.viewport_dirty then
    ({ self with viewport := new_viewport, viewport_dirty := false },
     [.viewportNative x y w h])
  else (self, [])

/-- `GlCache::apply_scissor`. -/
def GlCache.apply_scissor (self : GlCache) (x y w h : Int) : GlCache × List GlCall :=
  let new_scissor := some (x, y, w, h)
  if self.scissor ≠ new_scissor ∨ self.scissor_dirty then
    ({ self with scissor := new_scissor, scissor_dirty := false },
     [.scissorEnableCall, .scissorNative x y w h])
  else (self, [])

/-- C2 counterexample: the claim says the dirty flags make the FIRST call on
EVERY slot issue a native call even when the requested value equals the
default cached value; but the vertex-buffer slot has no dirty flag, and on a
default-constructed cache `bind_buffer(GL_ARRAY_BUFFER, 0)` — requesting the
default cached handle 0 — issues no native call at all. -/
theorem first_default_bind_issues_no_native_call :
    (GlCache.default.bind_buffer GL_ARRAY_BUFFER 0 none).2 = [] := by
  decide

/-- C2 (amended): only the program, viewport and scissor slots carry dirty
flags, and for those three the first call after default construction always
issues a native call, even when the requested value equals the default cached
value (program 0, viewport (0,0,0,0)); the vertex-buffer, index-buffer and
texture slots have no dirty flags, and their first call issues no native bind
when it requests the default cached handle 0 (`bind_texture` still issues its
unconditional `glActiveTexture`). -/
theorem dirty_flags_cover_only_program_viewport_scissor :
    (∀ p : Nat, (GlCache.default.use_program p).2 = [GlCall.useProgramCall p]) ∧
    (∀ x y w h : Int,
      (GlCache.default.apply_viewport x y w h).2 = [GlCall.viewportNative x y w h]) ∧
    (∀ x y w h : Int,
      (GlCache.default.apply_scissor x y w h).2 =
        [GlCall.scissorEnableCall, GlCall.scissorNative x y w h]) ∧
    (GlCache.default.bind_buffer GL_ARRAY_BUFFER 0 none).2 = [] ∧
    (GlCache.default.bind_buffer GL_ELEMENT_ARRAY_BUFFER 0 none).2 = [] ∧
    (∀ slot : Nat,
      (GlCache.default.bind_texture slot 0 0).2 =
        [GlCall.activeTextureCall (GL_TEXTURE0 + slot)]) := by
  refine ⟨?_, ?_, ?_, by decide, by decide, ?_⟩
  · intro p
    simp [GlCache.default, GlCache.use_program]
  · intro x y w h
    simp [GlCache.default, GlCache.apply_viewport]
  · intro x y w h
    simp [GlCache.default, GlCache.apply_scissor]
  · intro slot
    have hcached : (List.replicate MAX_SHADERSTAGE_IMAGES
        (CachedTexture.mk 0 0)).getD slot { target := 0, texture := 0 } =
        { target := 0, texture := 0 } := by
      by_cases hs : slot < MAX_SHADERSTAGE_IMAGES
      · simp [List.getD, List.getElem?_replicate, hs]
      · simp [List.getD, List.getElem?_eq_none, List.length_replicate,
          Nat.le_of_not_lt hs]
    simp [GlCache.default, GlCache.bind_texture, hcached]

/-! ### Command buffer / batcher (`src/graphics/command_buffer.rs`)

`Pipeline`, `BufferId`, `TextureId` are opaque `Copy + PartialEq` handle
types from the public resource API (outside `src/`); `PrimitiveType` is an
opaque `Copy + PartialEq` enum, `RenderPass` an opaque handle and
`PassAction` an opaque `Clone` value.  All are modelled as `Nat` — only
value equality and pass-through are used by this module. -/

def MAX_BATCH_SIZE : Nat := 1024
def MAX_INSTANCES_PER_DRAW : Int := 16384

/-- `CommandBindings`: value-equality snapshot of the bindings. -/
structure CommandBindings where
  vertex_buffers : List Nat
  index_buffer : Nat
  images : List Nat
deriving DecidableEq

/-- `DrawElementsParams` (`i32` fields as `Int`, `u32 index_type` as `Nat`). -/
structure DrawElementsParams where
  base_element : Int
  num_elements : Int
  num_instances : Int
  primitive_type : Nat
  index_type : Nat
deriving DecidableEq

/-- `StateChangeType`. -/
inductive StateChangeType where
  | Viewport (x y w h : Int)
  | Scissor (x y w h : Int)
  | Pipeline (pipeline : Nat)
deriving DecidableEq

/-- `Command`. -/
inductive Command where
  | DrawElements (pipeline : Nat) (bindings : CommandBindings)
      (params : DrawElementsParams)
  | StateChange (state_type : StateChangeType)
  | BeginPass (pass : Option Nat) (action : Nat)
  | EndPass
  | ApplyUniforms (data : List Nat)
deriving DecidableEq

/-- `DrawCall`: one draw inside a batch group. -/
structure DrawCall where
  base_element : Int
  num_elements : Int
  num_instances : Int
deriving DecidableEq

/-- `BatchGroup`. -/
structure BatchGroup where
  pipeline : Nat
  bindings : CommandBindings
  primitive_type : Nat
  index_type : Nat
  draws : List DrawCall
deriving DecidableEq

/-- `BatchGroup::new`. -/
def BatchGroup.new (pipeline : Nat) (bindings : CommandBindings)
    (primitive_type index_type : Nat) : BatchGroup :=
  { pipeline := pipeline, bindings := bindings, primitive_type := primitive_type,
    index_type := index_type, draws := [] }

/-- `BatchGroup::add_draw`. -/
def BatchGroup.add_draw (self : BatchGroup) (base_element num_elements num_instances : Int) :
    BatchGroup :=
  { self with draws := self.draws ++
      [{ base_element := base_element, num_elements := num_elements,
         num_instances := num_instances }] }

/-- `BatchGroup::is_compatible`. -/
def BatchGroup.is_compatible (self : BatchGroup) (pipeline : Nat)
    (bindings : CommandBindings) (primitive_type index_type : Nat) : Bool :=
  self.pipeline = pipeline ∧ self.bindings = bindings ∧
    self.primitive_type = primitive_type ∧ self.index_type = index_type

/-- `BatchGroup::draw_count`. -/
def BatchGroup.draw_count (self : BatchGroup) : Nat :=
  self.draws.length

/-- `BatchGroup::can_instance`: at least two draws, all with the first draw's
element count and exactly one instance each. -/
def BatchGroup.can_instance (self : BatchGroup) : Bool :=
  if self.draws.length < 2 then false
  else
    match self.draws with
    | [] => false
    | first_draw :: _ =>
        self.draws.all (fun draw =>
          draw.num_elements = first_draw.num_elements ∧ draw.num_instances = 1)

/-- `BatchStats` (the `f64` fields `average_batch_size` and
`compatibility_rate` are omitted, see the module comment). -/
structure BatchStats where
  total_commands : Nat := 0
  batched_commands : Nat := 0
  draw_calls_saved : Nat := 0
  state_changes_eliminated : Nat := 0
  instanced_draws_created : Nat := 0
  flush_count : Nat := 0
deriving DecidableEq

/-- `CommandBuffer`. -/
structure CommandBuffer where
  commands : List Command
  batch_groups : List BatchGroup
  stats : BatchStats
  max_batch_size : Nat
  auto_flush : Bool
  current_pipeline : Option Nat
  current_bindings : Option CommandBindings
  last_state_changes : List (String × StateChangeType)
deriving DecidableEq

/-- `CommandBuffer::new`. -/
def CommandBuffer.new : CommandBuffer :=
  { commands := [], batch_groups := [], stats := {},
    max_batch_size := MAX_BATCH_SIZE, auto_flush := true,
    current_pipeline := none, current_bindings := none,
    last_state_changes := [] }

/-- `CommandBuffer::flush`. -/
def CommandBuffer.flush (self : CommandBuffer) : CommandBuffer :=
  { self with
    commands := []
    batch_groups := []
    stats := { self.stats with flush_count := self.stats.flush_count + 1 }
    current_pipeline := none
    current_bindings := none }

/-- `CommandBuffer::add_command`. -/
def CommandBuffer.add_command (self : CommandBuffer) (command : Command) :
    CommandBuffer :=
  let self := { self with
    commands := self.commands ++ [command],
    stats := { self.stats with total_commands := self.stats.total_commands + 1 } }
  if self.auto_flush ∧ self.commands.length ≥ self.max_batch_size then
    self.flush
  else self

/-- The `match` on the state category inside `state_change`. -/
def stateKeyOf : StateChangeType → String
  | .Viewport .. => "viewport"
  | .Scissor .. => "scissor"
  | .Pipeline .. => "pipeline"

/-- `CommandBuffer::state_change`. -/
def CommandBuffer.state_change (self : CommandBuffer)
    (state_type : StateChangeType) : CommandBuffer :=
  let state_key := stateKeyOf state_type
  if lookupKey self.last_state_changes state_key = some state_type then
    { self with stats := { self.stats with
        state_changes_eliminated := self.stats.state_changes_eliminated + 1 } }
  else
    let self :=
      match state_type with
      | .Pipeline pipeline => { self with current_pipeline := some pipeline }
      | _ => self
    let self := { self with
      last_state_changes := insertKey self.last_state_changes state_key state_type }
    self.add_command (.StateChange state_type)

/-- `CommandBuffer::begin_pass`. -/
def CommandBuffer.begin_pass (self : CommandBuffer) (pass : Option Nat)
    (action : Nat) : CommandBuffer :=
  let self := { self with current_pipeline := none, current_bindings := none }
  self.add_command (.BeginPass pass action)

/-- `CommandBuffer::end_pass`. -/
def CommandBuffer.end_pass (self : CommandBuffer) : CommandBuffer :=
  self.add_command .EndPass

/-- `CommandBuffer::apply_uniforms`. -/
def CommandBuffer.apply_uniforms (self : CommandBuffer) (data : List Nat) :
    CommandBuffer :=
  self.add_command (.ApplyUniforms data)

/-- `CommandBuffer::draw_elements`. -/
def CommandBuffer.draw_elements (self : CommandBuffer) (pipeline : Nat)
    (bindings : CommandBindings) (params : DrawElementsParams) : CommandBuffer :=
  let self :=
    if self.current_pipeline ≠ some pipeline then
      let s := self.add_command (.StateChange (.Pipeline pipeline))
      { s with current_pipeline := some pipeline }
    else self
  let self :=
    if self.current_bindings ≠ some bindings then
      { self with current_bindings := some bindings }
    else self
  self.add_command (.DrawElements pipeline bindings params)

/-- The inner `for group in &mut self.batch_groups` scan of
`optimize_batches`: add the draw to the first compatible group, `none` when
no group matches. -/
def tryAddDraw (pipeline : Nat) (bindings : CommandBindings)
    (primitive_type index_type : Nat) (params : DrawElementsParams) :
    List BatchGroup → Option (List BatchGroup)
  | [] => none
  | g :: gs =>
      if g.is_compatible pipeline bindings primitive_type index_type then
        some (g.add_draw params.base_element params.num_elements
                params.num_instances :: gs)
      else
        (tryAddDraw pipeline bindings primitive_type index_type params gs).map
          (fun gs' => g :: gs')

/-- One step of the `for command in &self.commands` loop of
`optimize_batches`: the accumulator carries (groups, compatible_commands). -/
def optimizeStep (acc : List BatchGroup × Nat) (command : Command) :
    List BatchGroup × Nat :=
  match command with
  | .DrawElements pipeline bindings params =>
      match tryAddDraw pipeline bindings params.primitive_type
          params.index_type params acc.1 with
      | some gs => (gs, acc.2 + 1)
      | none =>
          (acc.1 ++ [(BatchGroup.new pipeline bindings params.primitive_type
              params.index_type).add_draw params.base_element
              params.num_elements params.num_instances],
           acc.2)
  | _ => acc

/-- `CommandBuffer::optimize_batches` (the `f64` `compatibility_rate` update
is omitted). -/
def CommandBuffer.optimize_batches (self : CommandBuffer) : CommandBuffer :=
  let r := self.commands.foldl optimizeStep ([], 0)
  { self with
    batch_groups := r.1
    stats := { self.stats with
      batched_commands := self.stats.batched_commands + r.2 } }

/-! ### Command execution (`CommandBuffer::execute` and helpers)

Execution is modelled as a trace of calls made against the `GlContext` /
state-cache layer. -/

/-- One call `execute` makes against the GL context layer. -/
inductive ExecEvent where
  | stateChangeEv (state_type : StateChangeType)
  | beginPassEv (pass : Option Nat) (action : Nat)
  | endPassEv
  | applyUniformsEv (data : List Nat)
  | applyPipelineEv (pipeline : Nat)
  | applyBindingsEv (bindings : CommandBindings)
  | drawEv (base_element num_elements num_instances : Int)
deriving DecidableEq

/-- The event the first (non-draw) loop of `execute` emits for a command:
`execute_state_change` / `execute_begin_pass` / `execute_end_pass` /
`execute_apply_uniforms`; `none` for `DrawElements` (handled by batches). -/
def nonDrawEvent? : Command → Option ExecEvent
  | .StateChange st => some (.stateChangeEv st)
  | .BeginPass pass action => some (.beginPassEv pass action)
  | .EndPass => some .endPassEv
  | .ApplyUniforms data => some (.applyUniformsEv data)
  | .DrawElements .. => none

/-- Is this event a replay of a recorded non-draw command? -/
def ExecEvent.isReplayedNonDraw : ExecEvent → Bool
  | .stateChangeEv _ => true
  | .beginPassEv .. => true
  | .endPassEv => true
  | .applyUniformsEv _ => true
  | .applyPipelineEv _ => false
  | .applyBindingsEv _ => false
  | .drawEv .. => false

/-- The events of one batch group, following the `execute` dispatch:
`execute_instanced_batch` / `execute_multi_draw_batch` /
`execute_single_draw_batch`.  The `[]` arms model the `draws[0]` panic on an
empty draw list, which `optimize_batches` never produces. -/
def execGroup (g : BatchGroup) : List ExecEvent :=
  if g.draw_count > 1 then
    if g.can_instance then
      [.applyPipelineEv g.pipeline, .applyBindingsEv g.bindings] ++
        (match g.draws with
         | [] => []
         | first_draw :: _ =>
             [.drawEv first_draw.base_element first_draw.num_elements
                (Int.ofNat (min g.draws.length MAX_INSTANCES_PER_DRAW.toNat))])
    else
      [.applyPipelineEv g.pipeline, .applyBindingsEv g.bindings] ++
        g.draws.map (fun draw =>
          .drawEv draw.base_element draw.num_elements draw.num_instances)
  else
    [.applyPipelineEv g.pipeline, .applyBindingsEv g.bindings] ++
      (match g.draws with
       | [] => []
       | draw :: _ =>
           [.drawEv draw.base_element draw.num_elements draw.num_instances])

/-- `original_draw_count - 1` draws saved for a group executed as one batch. -/
def groupSaved (g : BatchGroup) : Nat :=
  if g.draw_count > 1 then g.draw_count - 1 else 0

/-- 1 when the group is executed as a single instanced draw. -/
def groupInstanced (g : BatchGroup) : Nat :=
  if g.draw_count > 1 ∧ g.can_instance then 1 else 0

/-- `CommandBuffer::execute` (the `f64` `average_batch_size` update is
omitted; the returned trace is everything issued against the context). -/
def CommandBuffer.execute (self : CommandBuffer) : CommandBuffer × List ExecEvent :=
  if self.commands.isEmpty then (self, [])
  else
    let self := self.optimize_batches
    let trace := self.commands.filterMap nonDrawEvent? ++
      (self.batch_groups.map execGroup).flatten
    let draws_saved := (self.batch_groups.map groupSaved).sum
    let instances_created := (self.batch_groups.map groupInstanced).sum
    let self := { self with
      stats := { self.stats with
        draw_calls_saved := self.stats.draw_calls_saved + draws_saved
        instanced_draws_created :=
          self.stats.instanced_draws_created + instances_created
        flush_count := self.stats.flush_count + 1 }
      commands := []
      batch_groups := []
      current_pipeline := none
      current_bindings := none }
    (self, trace)

theorem execGroup_no_nondraw (g : BatchGroup) :
    ∀ e ∈ execGroup g, e.isReplayedNonDraw = false := by
  intro e he
  unfold execGroup at he
  split at he
  · split at he
    · rw [List.mem_append] at he
      rcases he with he | he
      · simp at he
        rcases he with rfl | rfl <;> rfl
      · split at he
        · simp at he
        · simp at he
          subst he
          rfl
    · rw [List.mem_append] at he
      rcases he with he | he
      · simp at he
        rcases he with rfl | rfl <;> rfl
      · rw [List.mem_map] at he
        obtain ⟨d, _, rfl⟩ := he
        rfl
  · rw [List.mem_append] at he
    rcases he with he | he
    · simp at he
      rcases he with rfl | rfl <;> rfl
    · split at he
      · simp at he
      · simp at he
        subst he
        rfl

theorem nonDrawEvent_isReplayed {c : Command} {e : ExecEvent}
    (h : nonDrawEvent? c = some e) : e.isReplayedNonDraw = true := by
  cases c <;> simp [nonDrawEvent?] at h <;> subst h <;> rfl

theorem optimize_batches_commands (cb : CommandBuffer) :
    cb.optimize_batches.commands = cb.commands := rfl

/-- C5: within one `execute()` call, every recorded non-draw command
(StateChange, BeginPass, EndPass, ApplyUniforms) is replayed in its original
recorded relative order, and all of them are replayed before any event of any
batch group; no draw is issued before a recorded non-draw command of the same
flush.  Concretely: the trace is the ordered replay of the non-draw commands
followed by batch-only events, and filtering the trace for non-draw replays
recovers exactly the recorded non-draw commands in order. -/
theorem execute_replays_nondraw_in_order_before_draws :
    ∀ cb : CommandBuffer,
      ∃ batchEvents : List ExecEvent,
        cb.execute.2 = cb.commands.filterMap nonDrawEvent? ++ batchEvents ∧
        (∀ e ∈ batchEvents, e.isReplayedNonDraw = false) ∧
        cb.execute.2.filter (fun e => e.isReplayedNonDraw)
          = cb.commands.filterMap nonDrawEvent? := by
  intro cb
  by_cases h : cb.commands.isEmpty
  · refine ⟨[], ?_, ?_, ?_⟩
    · simp [CommandBuffer.execute, h]
      rw [List.isEmpty_iff] at h
      simp [h]
    · intro e he
      simp at he
    · rw [List.isEmpty_iff] at h
      simp [CommandBuffer.execute, h]
  · refine ⟨(cb.optimize_batches.batch_groups.map execGroup).flatten, ?_, ?_, ?_⟩
    · simp [CommandBuffer.execute, h, optimize_batches_commands]
    · intro e he
      rw [List.mem_flatten] at he
      obtain ⟨l, hl, hel⟩ := he
      rw [List.mem_map] at hl
      obtain ⟨g, _, rfl⟩ := hl
      exact execGroup_no_nondraw g e hel
    · have htr : cb.execute.2 = cb.commands.filterMap nonDrawEvent? ++
          (cb.optimize_batches.batch_groups.map execGroup).flatten := by
        simp [CommandBuffer.execute, h, optimize_batches_commands]
      rw [htr, List.filter_append]
      have h1 : (cb.commands.filterMap nonDrawEvent?).filter
          (fun e => e.isReplayedNonDraw) = cb.commands.filterMap nonDrawEvent? := by
        rw [List.filter_eq_self]
        intro e he
        rw [List.mem_filterMap] at he
        obtain ⟨c, _, hc⟩ := he
        exact nonDrawEvent_isReplayed hc
      have h2 : ((cb.optimize_batches.batch_groups.map execGroup).flatten).filter
          (fun e => e.isReplayedNonDraw) = [] := by
        rw [List.filter_eq_nil_iff]
        intro e he
        rw [List.mem_flatten] at he
        obtain ⟨l, hl, hel⟩ := he
        rw [List.mem_map] at hl
        obtain ⟨g, _, rfl⟩ := hl
        simp [execGroup_no_nondraw g e hel]
      rw [h1, h2, List.append_nil]

/-! ### Batching lemmas (for C4) -/

/-- The compatibility key of a `DrawElements` command. -/
def drawKey? : Command → Option (Nat × CommandBindings × Nat × Nat)
  | .DrawElements pipeline bindings params =>
      some (pipeline, bindings, params.primitive_type, params.index_type)
  | _ => none

/-- The key tuple of a batch group. -/
def groupKey (g : BatchGroup) : Nat × CommandBindings × Nat × Nat :=
  (g.pipeline, g.bindings, g.primitive_type, g.index_type)

theorem is_compatible_iff (g : BatchGroup) (p : Nat) (b : CommandBindings)
    (pt it : Nat) :
    g.is_compatible p b pt it = true ↔
      (g.pipeline = p ∧ g.bindings = b ∧ g.primitive_type = pt ∧ g.index_type = it) := by
  simp [BatchGroup.is_compatible]

theorem groupKey_add_draw (g : BatchGroup) (a b c : Int) :
    groupKey (g.add_draw a b c) = groupKey g := rfl

theorem optimize_single_aux (k : Nat × CommandBindings × Nat × Nat) :
    ∀ (cmds : List Command) (g : BatchGroup) (n : Nat),
      groupKey g = k →
      (∀ c ∈ cmds, ∀ k', drawKey? c = some k' → k' = k) →
      ∃ g' m, cmds.foldl optimizeStep ([g], n) = ([g'], m) ∧
        groupKey g' = k ∧
        g'.draws.length = g.draws.length + (cmds.filterMap drawKey?).length := by
  intro cmds
  induction cmds with
  | nil =>
      intro g n hg _
      exact ⟨g, n, rfl, hg, by simp⟩
  | cons c rest ih =>
      intro g n hg hk
      rw [List.foldl_cons]
      cases c with
      | DrawElements p b params =>
          have hkey : (p, b, params.primitive_type, params.index_type) = k :=
            hk _ (List.mem_cons_self _ _) _ rfl
          have hcompat : g.is_compatible p b params.primitive_type params.index_type
              = true := by
            rw [is_compatible_iff]
            have hgk : (g.pipeline, g.bindings, g.primitive_type, g.index_type)
                = (p, b, params.primitive_type, params.index_type) := by
              rw [← hkey] at hg
              exact hg
            simpa [Prod.ext_iff] using hgk
          have hstep : optimizeStep ([g], n) (.DrawElements p b params) =
              ([g.add_draw params.base_element params.num_elements
                  params.num_instances], n + 1) := by
            simp [optimizeStep, tryAddDraw, hcompat]
          rw [hstep]
          obtain ⟨g', m, hfold, hgk, hlen⟩ := ih
            (g.add_draw params.base_element params.num_elements params.num_instances)
            (n + 1) (by rw [groupKey_add_draw]; exact hg)
            (fun c hc => hk c (List.mem_cons_of_mem _ hc))
          refine ⟨g', m, hfold, hgk, ?_⟩
          rw [hlen]
          simp [BatchGroup.add_draw, drawKey?]
          omega
      | StateChange st =>
          obtain ⟨g', m, hfold, hgk, hlen⟩ := ih g n hg
            (fun c hc => hk c (List.mem_cons_of_mem _ hc))
          exact ⟨g', m, hfold, hgk, by simpa [drawKey?] using hlen⟩
      | BeginPass pass action =>
          obtain ⟨g', m, hfold, hgk, hlen⟩ := ih g n hg
            (fun c hc => hk c (List.mem_cons_of_mem _ hc))
          exact ⟨g', m, hfold, hgk, by simpa [drawKey?] using hlen⟩
      | EndPass =>
          obtain ⟨g', m, hfold, hgk, hlen⟩ := ih g n hg
            (fun c hc => hk c (List.mem_cons_of_mem _ hc))
          exact ⟨g', m, hfold, hgk, by simpa [drawKey?] using hlen⟩
      | ApplyUniforms data =>
          obtain ⟨g', m, hfold, hgk, hlen⟩ := ih g n hg
            (fun c hc => hk c (List.mem_cons_of_mem _ hc))
          exact ⟨g', m, hfold, hgk, by simpa [drawKey?] using hlen⟩

theorem optimize_empty_aux (k : Nat × CommandBindings × Nat × Nat) :
    ∀ (cmds : List Command) (n : Nat),
      (∀ c ∈ cmds, ∀ k', drawKey? c = some k' → k' = k) →
      0 < (cmds.filterMap drawKey?).length →
      ∃ g' m, cmds.foldl optimizeStep ([], n) = ([g'], m) ∧
        groupKey g' = k ∧
        g'.draws.length = (cmds.filterMap drawKey?).length := by
  intro cmds
  induction cmds with
  | nil =>
      intro n _ hpos
      simp at hpos
  | cons c rest ih =>
      intro n hk hpos
      rw [List.foldl_cons]
      cases c with
      | DrawElements p b params =>
          have hkey : (p, b, params.primitive_type, params.index_type) = k :=
            hk _ (List.mem_cons_self _ _) _ rfl
          have hstep : optimizeStep ([], n) (.DrawElements p b params) =
              ([(BatchGroup.new p b params.primitive_type
                  params.index_type).add_draw params.base_element
                  params.num_elements params.num_instances], n) := by
            simp [optimizeStep, tryAddDraw]
          rw [hstep]
          obtain ⟨g', m, hfold, hgk, hlen⟩ := optimize_single_aux k rest
            ((BatchGroup.new p b params.primitive_type
                params.index_type).add_draw params.base_element
                params.num_elements params.num_instances)
            n (by rw [groupKey_add_draw]; exact hkey)
            (fun c hc => hk c (List.mem_cons_of_mem _ hc))
          refine ⟨g', m, hfold, hgk, ?_⟩
          rw [hlen]
          simp [BatchGroup.add_draw, BatchGroup.new, drawKey?]
          omega
      | StateChange st =>
          refine ih n (fun c hc => hk c (List.mem_cons_of_mem _ hc)) ?_
          simpa [drawKey?] using hpos
      | BeginPass pass action =>
          refine ih n (fun c hc => hk c (List.mem_cons_of_mem _ hc)) ?_
          simpa [drawKey?] using hpos
      | EndPass =>
          refine ih n (fun c hc => hk c (List.mem_cons_of_mem _ hc)) ?_
          simpa [drawKey?] using hpos
      | ApplyUniforms data =>
          refine ih n (fun c hc => hk c (List.mem_cons_of_mem _ hc)) ?_
          simpa [drawKey?] using hpos

/-- C4: when every recorded `DrawElements` command carries the exact same key
(pipeline, bindings, primitive type, index type) and at least one draw is
recorded, `optimize_batches` produces exactly one `BatchGroup`, carrying that
key and one draw entry per recorded draw; and a draw joins a group only on
exact equality of the whole key tuple (`is_compatible`), the scan being the
greedy first-fit over groups in creation order embodied by `tryAddDraw` /
`optimizeStep`. -/
theorem same_key_draws_collapse_into_one_group :
    (∀ (cb : CommandBuffer) (k : Nat × CommandBindings × Nat × Nat),
      (∀ c ∈ cb.commands, ∀ k', drawKey? c = some k' → k' = k) →
      0 < (cb.commands.filterMap drawKey?).length →
      ∃ g, cb.optimize_batches.batch_groups = [g] ∧ groupKey g = k ∧
        g.draws.length = (cb.commands.filterMap drawKey?).length) ∧
    (∀ (g : BatchGroup) (p : Nat) (b : CommandBindings) (pt it : Nat),
      g.is_compatible p b pt it = true ↔
        (g.pipeline = p ∧ g.bindings = b ∧ g.primitive_type = pt ∧
         g.index_type = it)) := by
  constructor
  · intro cb k hk hpos
    obtain ⟨g', m, hfold, hgk, hlen⟩ := optimize_empty_aux k cb.commands 0 hk hpos
    refine ⟨g', ?_, hgk, hlen⟩
    simp [CommandBuffer.optimize_batches, hfold]
  · exact is_compatible_iff

def sampleBindings : CommandBindings :=
  { vertex_buffers := [1], index_buffer := 2, images := [3] }

def sampleParams : DrawElementsParams :=
  { base_element := 0, num_elements := 6, num_instances := 1,
    primitive_type := 4, index_type := 5 }

/-- A buffer holding three recorded draws that share one key. -/
def sampleCB : CommandBuffer :=
  { CommandBuffer.new with
    commands := List.replicate 3 (.DrawElements 7 sampleBindings sampleParams) }

theorem same_key_draws_collapse_into_one_group_witness :
    ∃ g, sampleCB.optimize_batches.batch_groups = [g] ∧
      groupKey g = (7, sampleBindings, 4, 5) ∧ g.draws.length = 3 := by
  obtain ⟨g, h1, h2, h3⟩ := same_key_draws_collapse_into_one_group.1 sampleCB
    (7, sampleBindings, 4, 5)
    (by
      intro c hc k' hk'
      simp [sampleCB, CommandBuffer.new] at hc
      subst hc
      simp [drawKey?, sampleParams] at hk'
      exact hk'.symm)
    (by decide)
  exact ⟨g, h1, h2, by rw [h3]; decide⟩

/-- C6: a batch group with more than one draw is executed as a single
instanced draw exactly when every draw has the first draw's element count and
`num_instances = 1`; the instanced draw uses instance count
`min(number of draws, MAX_INSTANCES_PER_DRAW)` (16384), clamping away excess
draws; otherwise the draws execute sequentially after one shared
pipeline/bindings application. -/
theorem instanced_draw_exactly_when_uniform :
    ∀ g : BatchGroup, 1 < g.draws.length →
      ∃ d₀ ds, g.draws = d₀ :: ds ∧
        (g.can_instance = true ↔
          ∀ d ∈ g.draws, d.num_elements = d₀.num_elements ∧ d.num_instances = 1) ∧
        (g.can_instance = true →
          execGroup g = [.applyPipelineEv g.pipeline, .applyBindingsEv g.bindings,
            .drawEv d₀.base_element d₀.num_elements
              (Int.ofNat (min g.draws.length MAX_INSTANCES_PER_DRAW.toNat))]) ∧
        (g.can_instance = false →
          execGroup g =
            [.applyPipelineEv g.pipeline, .applyBindingsEv g.bindings] ++
              g.draws.map (fun d =>
                .drawEv d.base_element d.num_elements d.num_instances)) := by
  intro g hlen
  obtain ⟨p, b, pt, it, draws⟩ := g
  simp only [] at hlen
  cases hd : draws with
  | nil => subst hd; simp at hlen
  | cons d₀ ds =>
      subst hd
      simp only [List.length_cons] at hlen
      refine ⟨d₀, ds, rfl, ?_, ?_, ?_⟩
      · simp [BatchGroup.can_instance, BatchGroup.draw_count,
          List.all_eq_true]
        intro _ _
        omega
      · intro hci
        unfold execGroup
        rw [if_pos (by simp [BatchGroup.draw_count]; omega), if_pos hci]
        simp
      · intro hci
        have hc' : ¬ ((BatchGroup.mk p b pt it (d₀ :: ds)).can_instance = true) := by
          rw [hci]
          exact Bool.false_ne_true
        unfold execGroup
        rw [if_pos (by simp [BatchGroup.draw_count]; omega), if_neg hc']

def uniformGroup : BatchGroup :=
  { pipeline := 7, bindings := sampleBindings, primitive_type := 4,
    index_type := 5,
    draws := [{ base_element := 0, num_elements := 6, num_instances := 1 },
              { base_element := 9, num_elements := 6, num_instances := 1 }] }

theorem instanced_draw_exactly_when_uniform_witness :
    ∃ d₀ ds, uniformGroup.draws = d₀ :: ds ∧
      (uniformGroup.can_instance = true ↔
        ∀ d ∈ uniformGroup.draws,
          d.num_elements = d₀.num_elements ∧ d.num_instances = 1) ∧
      (uniformGroup.can_instance = true →
        execGroup uniformGroup =
          [.applyPipelineEv uniformGroup.pipeline,
           .applyBindingsEv uniformGroup.bindings,
           .drawEv d₀.base_element d₀.num_elements
             (Int.ofNat (min uniformGroup.draws.length
                MAX_INSTANCES_PER_DRAW.toNat))]) ∧
      (uniformGroup.can_instance = false →
        execGroup uniformGroup =
          [.applyPipelineEv uniformGroup.pipeline,
           .applyBindingsEv uniformGroup.bindings] ++
            uniformGroup.draws.map (fun d =>
              .drawEv d.base_element d.num_elements d.num_instances)) :=
  instanced_draw_exactly_when_uniform uniformGroup (by decide)

/-- C7: when `state_change` is called twice in a row with the same value and
the category's last recorded value differs (so the first call records), and
the buffer is not about to auto-flush, exactly one `StateChange` command is
recorded: the first call appends it and updates the last-value map without
touching the elimination counter; the second call records nothing — the
command queue, `total_commands` and the last-value map are unchanged — and
increments `state_changes_eliminated` by one, so the duplicate is never
replayed. -/
theorem duplicate_state_change_recorded_once :
    ∀ (cb : CommandBuffer) (st : StateChangeType),
      lookupKey cb.last_state_changes (stateKeyOf st) ≠ some st →
      cb.commands.length + 1 < cb.max_batch_size →
      (cb.state_change st).commands = cb.commands ++ [Command.StateChange st] ∧
      (cb.state_change st).stats.state_changes_eliminated
        = cb.stats.state_changes_eliminated ∧
      lookupKey (cb.state_change st).last_state_changes (stateKeyOf st)
        = some st ∧
      ((cb.state_change st).state_change st).commands
        = (cb.state_change st).commands ∧
      ((cb.state_change st).state_change st).stats.state_changes_eliminated
        = cb.stats.state_changes_eliminated + 1 ∧
      ((cb.state_change st).state_change st).stats.total_commands
        = (cb.state_change st).stats.total_commands ∧
      ((cb.state_change st).state_change st).last_state_changes
        = (cb.state_change st).last_state_changes := by
  intro cb st hlast hlen
  have hfirst : cb.state_change st =
      { cb with
        current_pipeline :=
          match st with
          | .Pipeline p => some p
          | _ => cb.current_pipeline
        last_state_changes :=
          insertKey cb.last_state_changes (stateKeyOf st) st
        commands := cb.commands ++ [Command.StateChange st]
        stats := { cb.stats with
          total_commands := cb.stats.total_commands + 1 } } := by
    unfold CommandBuffer.state_change
    rw [if_neg hlast]
    have hnoflush : ¬ (cb.max_batch_size ≤ cb.commands.length + 1) := by
      omega
    cases st <;>
      simp [CommandBuffer.add_command, hnoflush]
  have hsecond : lookupKey (cb.state_change st).last_state_changes
      (stateKeyOf st) = some st := by
    rw [hfirst]
    exact lookupKey_insertKey_self _ _ _
  have hdup : ∀ cb' : CommandBuffer,
      lookupKey cb'.last_state_changes (stateKeyOf st) = some st →
      cb'.state_change st =
        { cb' with stats := { cb'.stats with
            state_changes_eliminated :=
              cb'.stats.state_changes_eliminated + 1 } } := by
    intro cb' h'
    unfold CommandBuffer.state_change
    rw [if_pos h']
  have hsnd := hdup _ hsecond
  refine ⟨by rw [hfirst], by rw [hfirst], hsecond, by rw [hsnd], ?_, by rw [hsnd], by rw [hsnd]⟩
  rw [hsnd, hfirst]

theorem duplicate_state_change_recorded_once_witness :
    (CommandBuffer.new.state_change (.Viewport 0 0 0 0)).commands
      = CommandBuffer.new.commands ++
          [Command.StateChange (.Viewport 0 0 0 0)] ∧
    ((CommandBuffer.new.state_change (.Viewport 0 0 0 0)).state_change
        (.Viewport 0 0 0 0)).commands
      = (CommandBuffer.new.state_change (.Viewport 0 0 0 0)).commands ∧
    ((CommandBuffer.new.state_change (.Viewport 0 0 0 0)).state_change
        (.Viewport 0 0 0 0)).stats.state_changes_eliminated
      = CommandBuffer.new.stats.state_changes_eliminated + 1 := by
  have h := duplicate_state_change_recorded_once CommandBuffer.new
    (.Viewport 0 0 0 0) (by decide) (by decide)
  exact ⟨h.1, h.2.2.2.1, h.2.2.2.2.1⟩
